import Mathlib

/-!
Verification of the godaq host-side driver core (package `godaq`).

Shallow embedding conventions:
* Go `uint` becomes `ℕ`; Go `int16` register fields become `ℤ`.
* Go `float32` arithmetic in the calibration decoder is embedded over `ℚ`.
  This is exact here: the decoder only computes `1 + g/2^16`, `o/2^16` and
  `o/2^5` for `int16` values `g`, `o`; each such value needs at most 22
  significand bits, so every intermediate and final value is exactly
  representable in binary32 and the float computation agrees with `ℚ`.
* Go `error` results become `Option GoErr` / `Except GoErr`; a `nil` error
  is `none` / `Except.ok`.
* The dispatcher's serial side effects are represented by an explicit trace
  of issued `Message`s, and the transport's behaviour by an oracle passed
  as an argument.
-/

/-- The named error values of the package (`errors.New` values in
`opendaq.go`), plus the inline "Invalid LED color" error of `SetLED`. -/
inductive GoErr where
  | unknownModel
  | invalidLed
  | invalidColor
  | invalidInput
  | invalidOutput
  | invalidPIONum
  | invalidGainID
  | invalidID
  | invalidPIOValue
  deriving DecidableEq, Repr

/-- `Calib` from `opendaq.go`: a gain/offset calibration pair.
Float32 fields are embedded as `ℚ`. -/
structure Calib where
  gain : ℚ
  offset : ℚ
  deriving DecidableEq, Repr

/-- ADC descriptor, as constructed in the ModelS file:
`ADC{Bits: 16, Signed: true, VMin: -12.0, VMax: 12.0, Gains: adcGainsS}`. -/
structure ADC where
  bits : ℕ
  signed : Bool
  vMin : ℚ
  vMax : ℚ
  gains : List ℚ
  deriving DecidableEq, Repr

/-- DAC descriptor, as constructed in the ModelS file. -/
structure DAC where
  bits : ℕ
  signed : Bool
  vMin : ℚ
  vMax : ℚ
  deriving DecidableEq, Repr

/-- `HwFeatures` from `opendaq.go`. -/
structure HwFeatures where
  name : String
  nPIOs : ℕ
  nLeds : ℕ
  nInputs : ℕ
  nOutputs : ℕ
  nHiddenOutputs : ℕ
  nCalibRegs : ℕ
  dac : DAC
  adc : ADC
  deriving DecidableEq, Repr

/-- A command message: opcode number plus payload bytes
(`Message` of the protocol layer, as used in `opendaq.go`). -/
structure Message where
  number : ℕ
  payload : List ℕ
  deriving DecidableEq, Repr

/-- Opcode `AIN_CFG = 2` from `opendaq.go`. -/
def AIN_CFG : ℕ := 2

/-- Opcode `LED_W = 18` from `opendaq.go`. -/
def LED_W : ℕ := 18

/-- `adcGainsS` from the ModelS file. -/
def adcGainsS : List ℚ := [1, 2, 4, 5, 8, 10, 16, 20]

/-- `NewModelS` from the ModelS file: the feature block of the "S" board
variant (`nInputs := 8`, `nOutputs := 1`,
`NCalibRegs: nOutputs + 2*nInputs`). -/
def NewModelS : HwFeatures :=
  { name := "OpenDAQ S"
    nLeds := 1
    nPIOs := 6
    nInputs := 8
    nOutputs := 1
    nHiddenOutputs := 0
    nCalibRegs := 1 + 2 * 8
    adc := { bits := 16, signed := true, vMin := -12, vMax := 12, gains := adcGainsS }
    dac := { bits := 16, signed := true, vMin := 0, vMax := 4.096 } }

theorem NewModelS_nInputs : NewModelS.nInputs = 8 := rfl

theorem NewModelS_nOutputs : NewModelS.nOutputs = 1 := rfl

theorem NewModelS_nCalibRegs : NewModelS.nCalibRegs = 17 := rfl

/-- `ModelS.GetCalibIndex` from the ModelS file, translated clause by
clause.  Go returns `(0, err)` on failure and `(idx, nil)` on success;
this is embedded as `Except GoErr ℕ`. -/
def ModelS.GetCalibIndex (m : HwFeatures) (isOutput diffMode secondStage : Bool)
    (n gainId : ℕ) : Except GoErr ℕ :=
  if isOutput then
    if n < 1 ∨ m.nOutputs < n then .error .invalidOutput
    else .ok (n - 1)
  else if n < 1 ∨ m.nInputs < n ∨ secondStage = true then .error .invalidInput
  else if diffMode then .ok (m.nOutputs + m.nInputs + n - 1)
  else .ok (m.nOutputs + n - 1)

/-- `ModelS.CheckValidInputs` from the ModelS file: `pos` must lie in
`[1, NInputs]` and `neg` must be at most 8. Returns `none` for a `nil`
error. -/
def ModelS.CheckValidInputs (m : HwFeatures) (pos neg : ℕ) : Option GoErr :=
  if pos < 1 ∨ m.nInputs < pos then some .invalidInput
  else if 8 < neg then some .invalidInput
  else none

/-- C1: for the "S" variant, `GetCalibIndex` maps valid output channels
`n ∈ [1, NOutputs]` (single-ended, first stage) to `n - 1`, valid
single-ended input channels to `NOutputs + n - 1`, and valid differential
input channels to `NOutputs + NInputs + n - 1`, each with no error. -/
theorem modelS_calibIndex_valid_channels (n gainId : ℕ) :
    (1 ≤ n → n ≤ NewModelS.nOutputs →
      ModelS.GetCalibIndex NewModelS true false false n gainId = .ok (n - 1)) ∧
    (1 ≤ n → n ≤ NewModelS.nInputs →
      ModelS.GetCalibIndex NewModelS false false false n gainId =
        .ok (NewModelS.nOutputs + n - 1)) ∧
    (1 ≤ n → n ≤ NewModelS.nInputs →
      ModelS.GetCalibIndex NewModelS false true false n gainId =
        .ok (NewModelS.nOutputs + NewModelS.nInputs + n - 1)) := by
  refine ⟨?_, ?_, ?_⟩ <;> intro h1 h2 <;>
    simp only [NewModelS_nOutputs, NewModelS_nInputs] at h2 ⊢ <;>
    simp only [ModelS.GetCalibIndex, NewModelS_nOutputs, NewModelS_nInputs] <;>
    simp <;> omega

/-- Witness for `modelS_calibIndex_valid_channels` at `n = 1` (output) and
`n = 3` (single-ended and differential input). -/
theorem modelS_calibIndex_valid_channels_inst :
    (ModelS.GetCalibIndex NewModelS true false false 1 0 = .ok 0) ∧
    (ModelS.GetCalibIndex NewModelS false false false 3 0 = .ok 3) ∧
    (ModelS.GetCalibIndex NewModelS false true false 3 0 = .ok 11) :=
  ⟨(modelS_calibIndex_valid_channels 1 0).1 (by decide) (by decide),
   (modelS_calibIndex_valid_channels 3 0).2.1 (by decide) (by decide),
   (modelS_calibIndex_valid_channels 3 0).2.2 (by decide) (by decide)⟩

/-- C2: for the "S" variant, `GetCalibIndex` rejects (does not clamp)
`n = 0`, out-of-range channel numbers, and any second-stage request for an
input (the variant has no second calibration stage). -/
theorem modelS_calibIndex_rejects_invalid (n gainId : ℕ)
    (diffMode secondStage : Bool) :
    (ModelS.GetCalibIndex NewModelS true diffMode secondStage 0 gainId =
      .error .invalidOutput) ∧
    (ModelS.GetCalibIndex NewModelS false diffMode secondStage 0 gainId =
      .error .invalidInput) ∧
    (NewModelS.nOutputs < n →
      ModelS.GetCalibIndex NewModelS true diffMode secondStage n gainId =
        .error .invalidOutput) ∧
    (NewModelS.nInputs < n →
      ModelS.GetCalibIndex NewModelS false diffMode secondStage n gainId =
        .error .invalidInput) ∧
    (ModelS.GetCalibIndex NewModelS false diffMode true n gainId =
      .error .invalidInput) := by
  refine ⟨?_, ?_, ?_, ?_, ?_⟩
  · simp [ModelS.GetCalibIndex]
  · simp [ModelS.GetCalibIndex]
  · intro h
    simp only [NewModelS_nOutputs] at h
    simp [ModelS.GetCalibIndex, NewModelS_nOutputs]
    omega
  · intro h
    simp only [NewModelS_nInputs] at h
    simp [ModelS.GetCalibIndex, NewModelS_nInputs]
    intro _ h2 _
    exact absurd h (by omega)
  · simp [ModelS.GetCalibIndex]

/-- Witness for `modelS_calibIndex_rejects_invalid` at `n = 9`. -/
theorem modelS_calibIndex_rejects_invalid_inst :
    NewModelS.nInputs < 9 ∧
    ModelS.GetCalibIndex NewModelS false false false 9 0 =
      .error .invalidInput :=
  ⟨by decide, (modelS_calibIndex_rejects_invalid 9 0 false false).2.2.2.1 (by decide)⟩

/-- C3: every index the "S" variant's `GetCalibIndex` returns without an
error is strictly below `NCalibRegs`. -/
theorem modelS_calibIndex_lt_nCalibRegs (isOutput diffMode secondStage : Bool)
    (n gainId idx : ℕ)
    (h : ModelS.GetCalibIndex NewModelS isOutput diffMode secondStage n gainId =
      .ok idx) :
    idx < NewModelS.nCalibRegs := by
  rw [NewModelS_nCalibRegs]
  simp only [ModelS.GetCalibIndex, NewModelS_nOutputs, NewModelS_nInputs] at h
  split at h
  · split at h
    · simp at h
    · rename_i hc
      simp only [Except.ok.injEq] at h
      omega
  · split at h
    · simp at h
    · rename_i hc
      push_neg at hc
      obtain ⟨h1, h2, -⟩ := hc
      split at h <;> simp only [Except.ok.injEq] at h <;> omega

/-- Witness for `modelS_calibIndex_lt_nCalibRegs` at the largest valid
index request (differential input 8, index 16). -/
theorem modelS_calibIndex_lt_nCalibRegs_inst :
    ModelS.GetCalibIndex NewModelS false true false 8 0 = .ok 16 ∧
    16 < NewModelS.nCalibRegs :=
  ⟨rfl, modelS_calibIndex_lt_nCalibRegs false true false 8 0 16 rfl⟩

/-- The decode step of `OpenDAQ.readCalib` (`opendaq.go`): the register's
big-endian `int16` gain and offset fields are turned into a `Calib`.
Registers below `NOutputs + NHiddenOutputs` divide the raw offset by
`2^16`, all others by `2^5`; the raw gain decodes as `1 + raw/2^16` in
both classes.  The float32 arithmetic is exact for `int16` inputs, so the
`ℚ` embedding is faithful. -/
def readCalibDecode (feat : HwFeatures) (nReg : ℕ) (gain offs : ℤ) : Calib :=
  if nReg < feat.nOutputs + feat.nHiddenOutputs then
    { gain := 1 + (gain : ℚ) / 2 ^ 16, offset := (offs : ℚ) / 2 ^ 16 }
  else
    { gain := 1 + (gain : ℚ) / 2 ^ 16, offset := (offs : ℚ) / 2 ^ 5 }

/-- The `OpenDAQ` device state (`opendaq.go`): hardware features, the
model's two dispatch functions (the `HwModel` interface value), the
calibration array, and the mutable input configuration.  The serial port
handle and mutex are not part of the functional state. -/
structure OpenDAQState where
  features : HwFeatures
  hwGetCalibIndex : Bool → Bool → Bool → ℕ → ℕ → Except GoErr ℕ
  hwCheckValidInputs : ℕ → ℕ → Option GoErr
  calib : List Calib
  gainId : ℕ
  posInput : ℕ
  diffMode : Bool

/-- A device state for the "S" model after construction: features and
dispatch from `NewModelS`, identity calibration registers, and the
`New` defaults (`posInput = 1`). -/
def mkDaqS : OpenDAQState :=
  { features := NewModelS
    hwGetCalibIndex := ModelS.GetCalibIndex NewModelS
    hwCheckValidInputs := ModelS.CheckValidInputs NewModelS
    calib := List.replicate NewModelS.nCalibRegs ⟨1, 0⟩
    gainId := 0
    posInput := 1
    diffMode := false }

/-- `OpenDAQ.GetCalib` (`opendaq.go`): look up the calibration index via
the model; on any error return the identity calibration `Calib{1, 0}`,
otherwise the stored register. -/
def GetCalib (daq : OpenDAQState) (isOutput diffMode secondStage : Bool)
    (n gainId : ℕ) : Calib :=
  match daq.hwGetCalibIndex isOutput diffMode secondStage n gainId with
  | .error _ => ⟨1, 0⟩
  | .ok idx => daq.calib.getD idx ⟨1, 0⟩

/-- `OpenDAQ.SetLED` (`opendaq.go`).  `sendResult` is the outcome the
dispatcher would report for the `LED_W` command; the returned list is
the trace of commands actually issued. -/
def SetLED (daq : OpenDAQState) (n c : ℕ) (sendResult : Except GoErr Unit) :
    Except GoErr Unit × List Message :=
  if n < 1 ∨ daq.features.nLeds < n then (.error .invalidLed, [])
  else if 3 < c then (.error .invalidColor, [])
  else (sendResult, [⟨LED_W, [c % 256, n % 256]⟩])

/-- `OpenDAQ.ConfigureADC` (`opendaq.go`): validate the input pair via the
model, validate `gainId` against the ADC gain list, record the input
configuration, then send `AIN_CFG`.  Returns (result, new state, trace of
issued commands). -/
def ConfigureADC (daq : OpenDAQState) (posInput negInput gainId nSamples : ℕ)
    (sendResult : Except GoErr Unit) :
    Except GoErr Unit × OpenDAQState × List Message :=
  match daq.hwCheckValidInputs posInput negInput with
  | some e => (.error e, daq, [])
  | none =>
    if daq.features.adc.gains.length ≤ gainId then (.error .invalidGainID, daq, [])
    else
      (sendResult,
        { daq with
            posInput := posInput
            gainId := gainId
            diffMode := negInput != 0 },
        [⟨AIN_CFG, [posInput % 256, negInput % 256, gainId % 256, nSamples]⟩])

/-- C4: `readCalib` decoding maps zero raw fields to the identity
calibration in both register classes; registers below
`NOutputs + NHiddenOutputs` divide the raw offset by `2^16`, all other
registers by `2^5`, and both decode the raw gain as `1 + raw/2^16`. -/
theorem readCalib_decode_classes (feat : HwFeatures) (nReg : ℕ)
    (gain offs : ℤ) :
    (readCalibDecode feat nReg 0 0 = ⟨1, 0⟩) ∧
    (nReg < feat.nOutputs + feat.nHiddenOutputs →
      readCalibDecode feat nReg gain offs =
        ⟨1 + (gain : ℚ) / 2 ^ 16, (offs : ℚ) / 2 ^ 16⟩) ∧
    (feat.nOutputs + feat.nHiddenOutputs ≤ nReg →
      readCalibDecode feat nReg gain offs =
        ⟨1 + (gain : ℚ) / 2 ^ 16, (offs : ℚ) / 2 ^ 5⟩) := by
  refine ⟨?_, ?_, ?_⟩
  · unfold readCalibDecode
    split <;> norm_num
  · intro h
    unfold readCalibDecode
    rw [if_pos h]
  · intro h
    unfold readCalibDecode
    rw [if_neg (by omega)]

/-- Witness for `readCalib_decode_classes` on the "S" features: register 0
is output-class, register 5 is input-class. -/
theorem readCalib_decode_classes_inst :
    (0 : ℕ) < NewModelS.nOutputs + NewModelS.nHiddenOutputs ∧
    readCalibDecode NewModelS 0 2 4 = ⟨1 + (2 : ℚ) / 2 ^ 16, (4 : ℚ) / 2 ^ 16⟩ ∧
    NewModelS.nOutputs + NewModelS.nHiddenOutputs ≤ 5 ∧
    readCalibDecode NewModelS 5 2 4 = ⟨1 + (2 : ℚ) / 2 ^ 16, (4 : ℚ) / 2 ^ 5⟩ :=
  ⟨by decide, (readCalib_decode_classes NewModelS 0 2 4).2.1 (by decide),
   by decide, (readCalib_decode_classes NewModelS 5 2 4).2.2 (by decide)⟩

/-- C5 counterexample: the "S" variant does not declare 10 calibration
registers; `NewModelS` sets `NCalibRegs = nOutputs + 2*nInputs = 17`. -/
theorem modelS_nCalibRegs_ne_ten :
    ¬ (NewModelS.nInputs = 8 ∧ NewModelS.nOutputs = 1 ∧
        NewModelS.nCalibRegs = 10) := by
  decide

/-- C5 (amended): the "S" variant declares 8 analog inputs, 1 analog
output, and `NCalibRegs = nOutputs + 2*nInputs = 17` calibration
registers. -/
theorem modelS_feature_counts :
    NewModelS.nInputs = 8 ∧ NewModelS.nOutputs = 1 ∧
    NewModelS.nCalibRegs = NewModelS.nOutputs + 2 * NewModelS.nInputs ∧
    NewModelS.nCalibRegs = 17 := by
  decide

/-- C7: `SetLED` fails with the LED-range error for every `n` outside
`[1, NLeds]`, and (for in-range `n`) with the invalid-color error for
every color code above 3; in both cases no command is issued. -/
theorem setLED_validation_before_transport (daq : OpenDAQState) (n c : ℕ)
    (r : Except GoErr Unit) :
    ((n < 1 ∨ daq.features.nLeds < n) →
      SetLED daq n c r = (.error .invalidLed, [])) ∧
    (1 ≤ n → n ≤ daq.features.nLeds → 3 < c →
      SetLED daq n c r = (.error .invalidColor, [])) := by
  constructor
  · intro h
    unfold SetLED
    rw [if_pos h]
  · intro h1 h2 hc
    unfold SetLED
    rw [if_neg (by omega), if_pos hc]

/-- Witness for `setLED_validation_before_transport` on the "S" device:
`n = 0`, `n = NLeds + 1 = 2`, and color code 4. -/
theorem setLED_validation_before_transport_inst :
    SetLED mkDaqS 0 1 (.ok ()) = (.error .invalidLed, []) ∧
    SetLED mkDaqS 2 1 (.ok ()) = (.error .invalidLed, []) ∧
    SetLED mkDaqS 1 4 (.ok ()) = (.error .invalidColor, []) :=
  ⟨(setLED_validation_before_transport mkDaqS 0 1 _).1 (Or.inl (by decide)),
   (setLED_validation_before_transport mkDaqS 2 1 _).1 (Or.inr (by decide)),
   (setLED_validation_before_transport mkDaqS 1 4 _).2 (by decide) (by decide)
     (by decide)⟩

/-- C8: once both validations pass, `ConfigureADC` records
`diffMode = (negInput != 0)` and persists `posInput`/`gainId` in the
device state, issues the `AIN_CFG` command, and returns the send result;
the recorded state does not depend on the send outcome `r`, so it governs
the conversion of the next read even when the send fails. -/
theorem configureADC_records_state_before_send (daq : OpenDAQState)
    (posInput negInput gainId nSamples : ℕ) (r : Except GoErr Unit)
    (hpair : daq.hwCheckValidInputs posInput negInput = none)
    (hg : gainId < daq.features.adc.gains.length) :
    ConfigureADC daq posInput negInput gainId nSamples r =
      (r,
        { daq with
            posInput := posInput
            gainId := gainId
            diffMode := negInput != 0 },
        [⟨AIN_CFG, [posInput % 256, negInput % 256, gainId % 256, nSamples]⟩]) := by
  simp only [ConfigureADC, hpair]
  rw [if_neg (by omega)]

/-- Witness for `configureADC_records_state_before_send`: a failing send
still leaves the new configuration recorded. -/
theorem configureADC_records_state_before_send_inst :
    mkDaqS.hwCheckValidInputs 2 3 = none ∧
    1 < mkDaqS.features.adc.gains.length ∧
    ConfigureADC mkDaqS 2 3 1 1 (.error .invalidLed) =
      (.error .invalidLed,
        { mkDaqS with posInput := 2, gainId := 1, diffMode := 3 != 0 },
        [⟨AIN_CFG, [2 % 256, 3 % 256, 1 % 256, 1]⟩]) :=
  ⟨rfl, by decide,
   configureADC_records_state_before_send mkDaqS 2 3 1 1 _ rfl (by decide)⟩

/-- C9: `GetCalib` never propagates an error: whenever the model's
`GetCalibIndex` rejects the request, `GetCalib` returns the identity
calibration `Calib{1, 0}`. -/
theorem getCalib_error_fallback_identity (daq : OpenDAQState)
    (isOutput diffMode secondStage : Bool) (n gainId : ℕ) (e : GoErr)
    (h : daq.hwGetCalibIndex isOutput diffMode secondStage n gainId =
      .error e) :
    GetCalib daq isOutput diffMode secondStage n gainId = ⟨1, 0⟩ := by
  unfold GetCalib
  rw [h]

/-- Witness for `getCalib_error_fallback_identity` on the "S" device at
the invalid channel `n = 0`. -/
theorem getCalib_error_fallback_identity_inst :
    mkDaqS.hwGetCalibIndex false false false 0 0 = .error .invalidInput ∧
    GetCalib mkDaqS false false false 0 0 = ⟨1, 0⟩ :=
  ⟨rfl,
   getCalib_error_fallback_identity mkDaqS false false false 0 0 .invalidInput rfl⟩

/-- C10: when either validation of `ConfigureADC` fails, the device state
is returned unchanged and no command is issued. -/
theorem configureADC_validation_error_no_effect (daq : OpenDAQState)
    (posInput negInput gainId nSamples : ℕ) (r : Except GoErr Unit) :
    (∀ e, daq.hwCheckValidInputs posInput negInput = some e →
      ConfigureADC daq posInput negInput gainId nSamples r =
        (.error e, daq, [])) ∧
    (daq.hwCheckValidInputs posInput negInput = none →
      daq.features.adc.gains.length ≤ gainId →
      ConfigureADC daq posInput negInput gainId nSamples r =
        (.error .invalidGainID, daq, [])) := by
  constructor
  · intro e he
    simp only [ConfigureADC, he]
  · intro hn hg
    simp only [ConfigureADC, hn]
    rw [if_pos hg]

/-- Witness for `configureADC_validation_error_no_effect`: invalid input
pair `(0, 0)` and out-of-range gain id 8 on the "S" device. -/
theorem configureADC_validation_error_no_effect_inst :
    mkDaqS.hwCheckValidInputs 0 0 = some .invalidInput ∧
    ConfigureADC mkDaqS 0 0 0 1 (.ok ()) = (.error .invalidInput, mkDaqS, []) ∧
    mkDaqS.hwCheckValidInputs 1 0 = none ∧
    mkDaqS.features.adc.gains.length ≤ 8 ∧
    ConfigureADC mkDaqS 1 0 8 1 (.ok ()) = (.error .invalidGainID, mkDaqS, []) :=
  ⟨rfl,
   (configureADC_validation_error_no_effect mkDaqS 0 0 0 1 _).1 _ rfl,
   rfl, by decide,
   (configureADC_validation_error_no_effect mkDaqS 1 0 8 1 _).2 rfl (by decide)⟩

/-- The retry loop of `OpenDAQ.sendCommand` (`opendaq.go`), which wraps
the codec-level send in `try.Do` with the continue condition
`attempt < 8`.  `transport attempt` is the outcome of the codec
send/decode on the given 1-based attempt; the loop retries on any error
while `attempt < 8`, flushing the serial input buffer on each failing
attempt.  Returns (final result, number of the last attempt made, number
of flushes performed). -/
def sendAttemptsFrom {E A : Type} (transport : ℕ → Except E A)
    (attempt flushes : ℕ) : Except E A × ℕ × ℕ :=
  match transport attempt with
  | .ok a => (.ok a, attempt, flushes)
  | .error e =>
    if h : attempt < 8 then sendAttemptsFrom transport (attempt + 1) (flushes + 1)
    else (.error e, attempt, flushes + 1)
termination_by 8 - attempt
decreasing_by omega

/-- `OpenDAQ.sendCommand`'s retry behaviour: the loop starts at attempt 1
with no flushes performed. -/
def sendCommandRetry {E A : Type} (transport : ℕ → Except E A) :
    Except E A × ℕ × ℕ :=
  sendAttemptsFrom transport 1 0

theorem sendAttemptsFrom_ok {E A : Type} (transport : ℕ → Except E A)
    (attempt flushes : ℕ) (a : A) (h : transport attempt = .ok a) :
    sendAttemptsFrom transport attempt flushes = (.ok a, attempt, flushes) := by
  unfold sendAttemptsFrom
  rw [h]

theorem sendAttemptsFrom_err_lt {E A : Type} (transport : ℕ → Except E A)
    (attempt flushes : ℕ) (e : E) (h : transport attempt = .error e)
    (h8 : attempt < 8) :
    sendAttemptsFrom transport attempt flushes =
      sendAttemptsFrom transport (attempt + 1) (flushes + 1) := by
  conv_lhs => rw [sendAttemptsFrom]
  rw [h]
  exact dif_pos h8

theorem sendAttemptsFrom_err_ge {E A : Type} (transport : ℕ → Except E A)
    (attempt flushes : ℕ) (e : E) (h : transport attempt = .error e)
    (h8 : ¬ attempt < 8) :
    sendAttemptsFrom transport attempt flushes =
      (.error e, attempt, flushes + 1) := by
  conv_lhs => rw [sendAttemptsFrom]
  rw [h]
  exact dif_neg h8

theorem sendAttemptsFrom_succeeds {E A : Type} (transport : ℕ → Except E A)
    (a : A) (k : ℕ) (hk : k < 8) (hok : transport (k + 1) = .ok a)
    (hfail : ∀ i, 1 ≤ i → i ≤ k → ∃ e, transport i = .error e) :
    ∀ d j flushes, j + d = k + 1 → 1 ≤ j →
      sendAttemptsFrom transport j flushes = (.ok a, k + 1, flushes + d) := by
  intro d
  induction d with
  | zero =>
    intro j flushes hjd hj
    have hj1 : j = k + 1 := by omega
    subst hj1
    have h0 : flushes + 0 = flushes := rfl
    rw [h0, sendAttemptsFrom_ok transport (k + 1) flushes a hok]
  | succ d ih =>
    intro j flushes hjd hj
    obtain ⟨e, he⟩ := hfail j hj (by omega)
    rw [sendAttemptsFrom_err_lt transport j flushes e he (by omega)]
    rw [ih (j + 1) (flushes + 1) (by omega) (by omega)]
    have : flushes + 1 + d = flushes + (d + 1) := by omega
    rw [this]

theorem sendAttemptsFrom_exhausts {E A : Type} (transport : ℕ → Except E A)
    (errAt : ℕ → E) (hfail : ∀ i, transport i = .error (errAt i)) :
    ∀ d j flushes, j + d = 8 → 1 ≤ j →
      sendAttemptsFrom transport j flushes =
        (.error (errAt 8), 8, flushes + d + 1) := by
  intro d
  induction d with
  | zero =>
    intro j flushes hjd hj
    have hj1 : j = 8 := by omega
    subst hj1
    have h0 : flushes + 0 = flushes := rfl
    rw [h0, sendAttemptsFrom_err_ge transport 8 flushes (errAt 8) (hfail 8) (by omega)]
  | succ d ih =>
    intro j flushes hjd hj
    rw [sendAttemptsFrom_err_lt transport j flushes (errAt j) (hfail j) (by omega)]
    rw [ih (j + 1) (flushes + 1) (by omega) (by omega)]
    have : flushes + 1 + d + 1 = flushes + (d + 1) + 1 := by omega
    rw [this]

/-- C6: the dispatcher's retry loop makes at most 8 attempts, flushing
the transport on each failure.  If the transport fails the first `k < 8`
attempts and succeeds on attempt `k + 1`, the loop returns that success
after exactly `k + 1` attempts (with `k` flushes); if the transport
always fails, the loop returns the error of the 8th attempt after
exactly 8 attempts (with 8 flushes) and no more. -/
theorem sendCommand_retry_bound {E A : Type} (transport : ℕ → Except E A) :
    (∀ k a, k < 8 → (∀ i, 1 ≤ i → i ≤ k → ∃ e, transport i = .error e) →
      transport (k + 1) = .ok a →
      sendCommandRetry transport = (.ok a, k + 1, k)) ∧
    (∀ errAt : ℕ → E, (∀ i, transport i = .error (errAt i)) →
      sendCommandRetry transport = (.error (errAt 8), 8, 8)) := by
  constructor
  · intro k a hk hfail hok
    unfold sendCommandRetry
    have := sendAttemptsFrom_succeeds transport a k hk hok hfail k 1 0
      (by omega) (by omega)
    simpa using this
  · intro errAt hfail
    unfold sendCommandRetry
    have := sendAttemptsFrom_exhausts transport errAt hfail 7 1 0
      (by omega) (by omega)
    simpa using this

/-- Witness for `sendCommand_retry_bound`: a transport that fails its
first three attempts then succeeds yields the value after 4 attempts;
a transport that always fails yields the 8th error after 8 attempts. -/
theorem sendCommand_retry_bound_inst :
    sendCommandRetry (fun i => if i < 4 then (Except.error 0 : Except ℕ ℕ)
      else .ok 7) = (.ok 7, 4, 3) ∧
    sendCommandRetry (fun i => (Except.error i : Except ℕ ℕ)) =
      (.error 8, 8, 8) :=
  ⟨(sendCommand_retry_bound (fun i => if i < 4 then (Except.error 0 : Except ℕ ℕ)
        else .ok 7)).1 3 7 (by omega)
      (fun i h1 h3 => ⟨0, by simp [show i < 4 by omega]⟩) (by simp),
   (sendCommand_retry_bound (fun i => (Except.error i : Except ℕ ℕ))).2
      (fun i => i) (fun i => rfl)⟩
